import Mathlib

/-!
Verification of the kuberpult manifest-repository transformation engine
(cd-service `repository` package and `pkg/auth`), via a shallow embedding
of the Go source into Lean.

Conventions of the embedding:
* Machine errors (`error` values) are the inductive `GoError`; `errors.Is`
  is `errsIs`, which unwraps through the wrapping constructors exactly as
  the Go error chain does (`fmt.Errorf` with `%w`, `InternalError{inner}`,
  `grpc.CanceledError`).
* Fallible Go functions return `Except GoError α` (or an explicit pair
  when the Go code returns both a value and an error, as
  `readSymlink` does).
* External effects (libgit2 fetch/push, the HTTP client, `ReadDir`,
  `Readlink`, `Stat`) are oracles passed in as explicit arguments: the
  embedded control flow is exactly the Go control flow over those
  oracle results.
-/

namespace Kuberpult

/-- Go `error` values relevant to the `repository` and `auth` packages.
`wrap` is `fmt.Errorf("... %w", inner)`; `internalErr` is
`&InternalError{inner}`; `canceledError` is `grpc.CanceledError`. -/
inductive GoError where
  /-- `var invalidJson = errors.New("JSON file is not valid")` (repository.go). -/
  | invalidJson
  /-- the error produced by `encoding/json` on malformed input
  (`json.Unmarshal` / `Decoder.Decode`); a fresh error value, unrelated
  to `invalidJson`. -/
  | jsonSyntax
  /-- `os.ErrNotExist`. -/
  | notExist
  /-- `fmt.Errorf("<msg>: %w", inner)`: wrapping preserved for `errors.Is`. -/
  | wrap (msg : String) (inner : GoError)
  /-- `&InternalError{inner}`. -/
  | internalErr (inner : GoError)
  /-- a `*git.GitError` with code `git.ErrorCodeNonFastForward`. -/
  | gitNonFastForward
  /-- a `*git.GitError` with any other code. -/
  | gitOther (code : Nat)
  /-- `context.Canceled`. -/
  | ctxCanceled
  /-- `context.DeadlineExceeded`. -/
  | ctxDeadlineExceeded
  /-- `grpc.CanceledError(ctx, err)`. -/
  | canceledError (inner : GoError)
  /-- `grpc.PublicError(ctx, errors.New(msg))`. -/
  | publicErr (msg : String)
  /-- `fmt.Errorf("failed to push - this indicates that branch protection is enabled ...")`. -/
  | branchProtection
  /-- `var panicError = errors.New("Panic")` (repository.go). -/
  | panicErr
  /-- `errors.New(fmt.Sprintf("doWebhookPostRequest: invalid status code from argo: %d", code))`. -/
  | argoStatus (code : Nat)
  /-- `errors.New(fmt.Sprintf("doWebhookPostRequest: could not send request ..."))`. -/
  | argoTransport
  /-- `strconv.ParseUint`: `invalid syntax` / `value out of range`. -/
  | parseErr (msg : String)
  /-- the error of `httperrors.InternalError(ctx, errors.New("could not read user from context"))`. -/
  | noUserInContext
  /-- any other I/O or library error, tagged. -/
  | ioErr (tag : Nat)
  deriving Repr, DecidableEq

/-- Go `errors.Is(e, target)`: `e == target`, or unwrap through the
wrapping constructors. -/
def errsIs : GoError → GoError → Bool
  | e, t =>
    e == t ||
      match e with
      | .wrap _ inner => errsIs inner t
      | .internalErr inner => errsIs inner t
      | .canceledError inner => errsIs inner t
      | _ => false

/-- `'0' ≤ c && c ≤ '9'`, the digit test of `strconv.ParseUint` for base 10. -/
def isDecDigit (c : Char) : Bool := '0' ≤ c && c ≤ '9'

/-- `strconv.ParseUint(s, 10, 64)`, returning (value, error) like Go:
on a syntax error the value is `0`, on overflow it is `2^64 - 1`
(`math.MaxUint64`). -/
def parseUintGo (s : String) : Nat × Option GoError :=
  if s.data.isEmpty || !s.data.all isDecDigit then
    (0, some (.parseErr "invalid syntax"))
  else
    let v := s.data.foldl (fun acc c => acc * 10 + (c.toNat - 48)) 0
    if v < 2 ^ 64 then (v, none) else (2 ^ 64 - 1, some (.parseErr "value out of range"))

/-- The successful result of `strconv.ParseUint(s, 10, 64)`, `none` when Go
returns an error. -/
def parseUint64 (s : String) : Option Nat :=
  match parseUintGo s with
  | (v, none) => some v
  | (_, some _) => none

/-! ## State.Releases and State.GetApplicationReleases

`State.Releases` (repository.go): `ReadDir` of
`applications/<app>/releases`, then for each entry `ParseUint(e.Name(), 10, 64)`,
skipping entries that do not parse.  No sorting happens.
`State.GetApplicationReleases` does the same (via `names`) and then sorts
with `sort.Slice(result, func(i, j) { return result[i] < result[j] })`.

The `ReadDir` error path is a pass-through (`return nil, err`), so both
are embedded as functions of the entry-name list `ReadDir` yielded. -/

/-- `State.Releases(application)`, as a function of the names `ReadDir`
yielded for `applications/<application>/releases`. -/
def Releases (entries : List String) : List Nat :=
  entries.filterMap parseUint64

/-- `State.GetApplicationReleases(application)`: like `Releases`, then
`sort.Slice` with `<`.  `sort.Slice`'s output on `uint64` is the
nondecreasing permutation of its input, which is what insertion sort by
`≤` computes. -/
def GetApplicationReleases (entries : List String) : List Nat :=
  List.insertionSort (· ≤ ·) (entries.filterMap parseUint64)

/-! ## pkg/auth -/

/-- `auth.DexAuthContext`. -/
structure DexAuthContext where
  role : String
  deriving Repr, DecidableEq

/-- `auth.User`. -/
structure User where
  email : String
  name : String
  /-- Optional; only used if RBAC is enabled. -/
  dexAuthContext : Option DexAuthContext := none
  deriving Repr, DecidableEq

/-- `auth.GetUserOrDefault(u *User, defaultUser User) User` (auth.go
lines 181–196), with the nilable pointer `u` rendered as `Option User`. -/
def GetUserOrDefault (u : Option User) (defaultUser : User) : User :=
  let userAdapted : User := { email := defaultUser.email, name := defaultUser.name }
  match u with
  | some v =>
      if v.email ≠ "" then
        { email := v.email,
          -- if no username was specified, use email as username
          name := if v.name = "" then v.email else v.name }
      else userAdapted
  | none => userAdapted

/-- `auth.ReadUserFromContext(ctx)`: the context either carries a
non-nil `*User` or the lookup fails. -/
def ReadUserFromContext (ctxUser : Option User) : Except GoError User :=
  match ctxUser with
  | none => .error .noUserInContext
  | some u => .ok u

/-! ## State.GetEnvironmentConfigs

Two branches (repository.go lines 1466–1502).  Bootstrap mode reads one
JSON file with `ioutil.ReadFile` + `json.Unmarshal`; otherwise it walks
`environments/*/config.json` with `decodeJsonFile`.  Environment
configurations are opaque to the engine; we model them as an abstract
record with a zero value (Go's zero `config.EnvironmentConfig`). -/

/-- `config.EnvironmentConfig` (pkg/config); opaque here, only its zero
value and identity matter for the engine. -/
structure EnvironmentConfig where
  raw : List (String × String) := []
  deriving Repr, DecidableEq, Inhabited

/-- Result of `ioutil.ReadFile` + `json.Unmarshal` on the bootstrap
configs file: `.error e` = ReadFile failed with `e`; `.ok none` = file
read but `json.Unmarshal` fails (malformed); `.ok (some m)` = parsed. -/
abbrev BootstrapFileRead := Except GoError (Option (List (String × EnvironmentConfig)))

/-- The bootstrap branch of `State.GetEnvironmentConfigs`. -/
def getEnvironmentConfigsBootstrap (file : BootstrapFileRead) :
    Except GoError (List (String × EnvironmentConfig)) :=
  match file with
  | .error e => if errsIs e .notExist then .ok [] else .error e
  | .ok none => .error .jsonSyntax
  | .ok (some m) => .ok m

/-- State of an `environments/<env>/config.json` file as seen by
`decodeJsonFile` (repository.go lines 1676–1684). -/
inductive ConfigFileState where
  /-- `Open` fails with a does-not-exist error. -/
  | absent
  /-- `Open` fails with another error. -/
  | openErr (e : GoError)
  /-- `Open` succeeds, `Decoder.Decode` fails (malformed JSON). -/
  | malformed
  /-- parses to a config. -/
  | parsed (c : EnvironmentConfig)
  deriving Repr, DecidableEq

/-- `decodeJsonFile(fs, path, out)`: wraps `Open` errors with
`wrapFileError` (which uses `%w`, so `errors.Is` still sees the inner
error), returns the decoder's error otherwise. -/
def decodeJsonFile : ConfigFileState → Except GoError EnvironmentConfig
  | .absent => .error (.wrap "could not decode json file" .notExist)
  | .openErr e => .error (.wrap "could not decode json file" e)
  | .malformed => .error .jsonSyntax
  | .parsed c => .ok c

/-- The non-bootstrap loop body of `State.GetEnvironmentConfigs`: for
each environment directory name, decode its `config.json`; a
does-not-exist error stores the zero config, any other decode error
aborts with `fmt.Errorf("%s : %w", fileName, invalidJson)`. -/
def getEnvironmentConfigsManifestLoop (file : String → ConfigFileState) :
    List String → Except GoError (List (String × EnvironmentConfig))
  | [] => .ok []
  | env :: rest =>
      match decodeJsonFile (file env) with
      | .error err =>
          if errsIs err .notExist then
            match getEnvironmentConfigsManifestLoop file rest with
            | .error e => .error e
            | .ok m => .ok ((env, default) :: m)
          else
            .error (.wrap ("environments/" ++ env ++ "/config.json : ") .invalidJson)
      | .ok c =>
          match getEnvironmentConfigsManifestLoop file rest with
          | .error e => .error e
          | .ok m => .ok ((env, c) :: m)

/-- The non-bootstrap branch of `State.GetEnvironmentConfigs`:
`ReadDir("environments")`, then the decode loop. -/
def getEnvironmentConfigsManifest (envs : Except GoError (List String))
    (file : String → ConfigFileState) :
    Except GoError (List (String × EnvironmentConfig)) :=
  match envs with
  | .error e => .error e
  | .ok es => getEnvironmentConfigsManifestLoop file es

/-- `State.GetEnvironmentConfigs`, dispatching on `BootstrapMode`. -/
def GetEnvironmentConfigs (bootstrapMode : Bool) (bootstrapFile : BootstrapFileRead)
    (envs : Except GoError (List String)) (file : String → ConfigFileState) :
    Except GoError (List (String × EnvironmentConfig)) :=
  if bootstrapMode then getEnvironmentConfigsBootstrap bootstrapFile
  else getEnvironmentConfigsManifest envs file

/-! ## State.readSymlink (GetEnvironmentApplicationVersion / GetQueuedVersion)

repository.go lines 1402–1425.  The surrounding filesystem is an oracle:
`readlink` is the result of `Readlink` on the symlink path, and
`statName` maps the link target read from the symlink to the result of
`Stat(Join(dir, lnk)).Name()` (the base name of the stat'ed file). -/

/-- `State.readSymlink(environment, application, symlinkName)`.  Returns
the `(*uint64, error)` pair: note that on a `ParseUint` failure Go
returns a non-nil pointer (to `0` or `MaxUint64`) **and** an error. -/
def readSymlink (readlink : Except GoError String)
    (statName : String → Except GoError String) : Option Nat × Option GoError :=
  match readlink with
  | .error e =>
      if errsIs e .notExist then
        -- if the link does not exist, we return nil
        (none, none)
      else
        (none, some (.wrap "failed reading symlink" e))
  | .ok lnk =>
      match statName lnk with
      | .error e =>
          -- if the file that the link points to does not exist, that's an error
          (none, some (.wrap "failed stating" e))
      | .ok name =>
          let (res, err) := parseUintGo name
          (some res, err)

/-- `State.GetEnvironmentApplicationVersion(env, app)` resolves the
`version` symlink. -/
def GetEnvironmentApplicationVersion (readlink : Except GoError String)
    (statName : String → Except GoError String) : Option Nat × Option GoError :=
  readSymlink readlink statName

/-- `State.GetQueuedVersion(env, app)` resolves the `queued_version`
symlink (`queueFileName`); same code path as
`GetEnvironmentApplicationVersion`. -/
def GetQueuedVersion (readlink : Except GoError String)
    (statName : String → Except GoError String) : Option Nat × Option GoError :=
  readSymlink readlink statName

/-! ## Webhook dispatcher (sendWebhookToArgoCd / doWebhookPostRequest)

repository.go lines 637–736. -/

/-- `maxArgoRequests = 3` (repository.go line 215). -/
def maxArgoRequests : Nat := 3

/-- What one HTTP POST attempt produced: a transport failure from
`client.Do`, or a response status code. -/
inductive AttemptOutcome where
  | transportErr
  | status (code : Nat)
  deriving Repr, DecidableEq

/-- `doWebhookPostRequest` reduced to its `(error, shouldRetry)` result
as a function of the attempt outcome: transport errors are
`(err, false)`; a status `>= 500` is `(err, true)`; status `200` is
`(nil, false)`; anything else is `(err, false)` (e.g. status 4xx: no
retry). -/
def doWebhookPostRequest : AttemptOutcome → Option GoError × Bool
  | .transportErr => (some .argoTransport, false)
  | .status code =>
      if 500 ≤ code then (some (.argoStatus code), true)
      else if code = 200 then (none, false)
      else (some (.argoStatus code), false)

/-- The retry loop of `sendWebhookToArgoCd`:

    for i := 1; i <= maxArgoRequests; i++ {
      err, shouldRetry := doWebhookPostRequest(ctx, ..., i)
      if err != nil && shouldRetry { ...; time.Sleep(100*i ms) }
      else { success = true; break }
    }

`resp i` is the outcome of attempt `i`; the result is
`(success, last attempt executed, sleep durations in ms, in order)`.
Rendered with explicit fuel (`maxArgoRequests - i + 1` remaining
iterations). -/
def webhookAttempts (resp : Nat → AttemptOutcome) :
    Nat → Nat → List Nat → Bool × Nat × List Nat
  | 0, i, sleeps => (false, i - 1, sleeps)
  | fuel + 1, i, sleeps =>
      match doWebhookPostRequest (resp i) with
      | (some _, true) => webhookAttempts resp fuel (i + 1) (sleeps ++ [100 * i])
      | _ => (true, i, sleeps)

/-- `sendWebhookToArgoCd`'s attempt loop, started at attempt 1 with
`maxArgoRequests` iterations available. -/
def sendWebhookToArgoCd (resp : Nat → AttemptOutcome) : Bool × Nat × List Nat :=
  webhookAttempts resp maxArgoRequests 1 []

/-! ## repository.Push under backoff

repository.go lines 1003–1024.  `defaultBackOffProvider` wraps an
exponential backoff in `backoff.WithMaxRetries(eb, 6)`.  The operation
marks a non-fast-forward `git.GitError` as `backoff.Permanent`, which
makes `backoff.Retry` return its inner error immediately.  The
underlying exponential backoff may also stop on wall-clock time
(`MaxElapsedTime`); that decision is the oracle `ebStop`. -/

/-- Maximum number of retries after the first attempt
(`backoff.WithMaxRetries(eb, 6)`). -/
def maxPushRetries : Nat := 6

/-- `backoff.Retry` over the push operation.  `op i` is the error of the
`i`-th `pushAction` call (0-based), `none` meaning success; `ebStop i`
says whether the exponential backoff returns `Stop` after attempt `i`.
Returns the final error and the number of attempts performed.
`fuel` is the number of retries still allowed. -/
def pushRetryLoop (op : Nat → Option GoError) (ebStop : Nat → Bool) :
    Nat → Nat → Option GoError × Nat
  | 0, i =>
      -- retries exhausted: this attempt's outcome is final
      (op i, i + 1)
  | fuel + 1, i =>
      match op i with
      | none => (none, i + 1)
      | some e =>
          if e == .gitNonFastForward then
            -- backoff.Permanent(err): Retry returns the inner error at once
            (some e, i + 1)
          else if ebStop i then (some e, i + 1)
          else pushRetryLoop op ebStop fuel (i + 1)

/-- `repository.Push(ctx, pushAction)`. -/
def Push (op : Nat → Option GoError) (ebStop : Nat → Bool) : Option GoError × Nat :=
  pushRetryLoop op ebStop maxPushRetries 0

/-! ## Change-sets (TransformerResult) -/

/-- `repository.TransformerResult`: changed `(app, env)` pairs, deleted
root apps (their environments), and the `{Previous, Current}` commit-id
pair (`Previous` is a nilable `*git.Oid`). -/
structure Changes where
  changedApps : List (String × String) := []
  deletedRootApps : List String := []
  commits : Option (Option Nat × Nat) := none
  deriving Repr, DecidableEq

/-- `TransformerResult.Combine(other)`: append the app lists; keep the
receiver's `Commits` if non-nil, else take `other`'s. -/
def Changes.combine (r o : Changes) : Changes :=
  { changedApps := r.changedApps ++ o.changedApps
    deletedRootApps := r.deletedRootApps ++ o.deletedRootApps
    commits := match r.commits with | none => o.commits | some c => some c }

/-- `CombineArray(others)`. -/
def CombineArray (l : List Changes) : Changes := l.foldl Changes.combine {}

/-! ## The writer loop: applyElements / ProcessQueueOnce

repository.go lines 413–598.  The loop's interactions with the world
are rendered as an event trace:
* `send id res` — `el.result <- res` on the element's single-use result
  channel (`res = none` is a `nil` send);
* `fetchAndReset` — a call to `r.FetchAndReset`;
* `pushAttempt phase` — a call to `r.Push` (`phase` 1 = initial push,
  2 = the push after non-fast-forward recovery);
* `webhook c` — `r.sendWebhookToArgoCd(ctx, logger, c)`;
* `notified` — `r.notify.Notify()`.

The outcomes of `ApplyTransformers`, `FetchAndReset` and the two `Push`
phases come from a `WriterEnv` oracle.  `ApplyTransformers` outcomes are
indexed by the number of fetch-and-resets performed so far, because a
reset moves the branch head and may change any transformer's result. -/

/-- A queue element as the writer sees it: its identity, whether its
context is already done when inspected, and the context's error. -/
structure QElement where
  id : Nat
  ctxDone : Bool
  ctxErr : GoError := .ctxCanceled
  deriving Repr, DecidableEq

/-- Observable actions of one `ProcessQueueOnce` iteration. -/
inductive Event where
  | send (id : Nat) (res : Option GoError)
  | fetchAndReset
  | pushAttempt (phase : Nat)
  | webhook (changes : Changes)
  | notified
  deriving Repr, DecidableEq

/-- Oracle for one `ProcessQueueOnce` iteration. -/
structure WriterEnv where
  /-- `applyOutcome k id`: result of `r.ApplyTransformers(e.ctx, e.transformers...)`
  for element `id` when `k` fetch-and-resets have happened so far. -/
  applyOutcome : Nat → Nat → Except GoError Changes
  /-- `fetchOutcome k`: the error returned by the `k`-th `r.FetchAndReset`
  call (`none` = success). -/
  fetchOutcome : Nat → Option GoError
  /-- result of the first `r.Push` call. -/
  push1 : Option GoError
  /-- result of the second `r.Push` call (after non-fast-forward recovery). -/
  push2 : Option GoError
  /-- the `pushSuccess` flag as set by the `PushUpdateReferenceCallback`
  during the first (transport-successful) push; `false` means the branch
  ref was not moved (branch protection). -/
  pushSuccessFlag : Bool
  /-- `r.config.ArgoWebhookUrl != ""`. -/
  webhookConfigured : Bool

/-- Result of one `applyElements` pass. -/
structure ApplyPassResult where
  survivors : List QElement
  changes : Changes
  events : List Event
  deriving Repr, DecidableEq

/-- `applyElements(elements, false)`: the pass with recovery disabled.
Every transformer error—`invalidJson` included—fails only its own
element: the error is sent on that element's result channel and the
element is removed; the loop continues with the next element. -/
def applyPassNoReset (env : WriterEnv) (k : Nat) : List QElement → ApplyPassResult
  | [] => { survivors := [], changes := {}, events := [] }
  | e :: rest =>
      match env.applyOutcome k e.id with
      | .ok sub =>
          let r := applyPassNoReset env k rest
          { survivors := e :: r.survivors
            changes := Changes.combine sub r.changes
            events := r.events }
      | .error err =>
          let r := applyPassNoReset env k rest
          { survivors := r.survivors
            changes := r.changes
            events := .send e.id (some err) :: r.events }

/-- Result of `applyElements(elements, true)`. -/
structure ApplyElementsResult where
  survivors : List QElement
  /-- the `error` return value: non-`none` only when a recovery
  `FetchAndReset` failed. -/
  abortErr : Option GoError
  changes : Changes
  events : List Event
  /-- fetch-and-resets performed during this call (0 or 1). -/
  resets : Nat
  deriving Repr, DecidableEq

/-- `applyElements(elements, true)`: iterate over the elements; on an
error satisfying `errors.Is(err, invalidJson)` perform one
`FetchAndReset` and restart the whole pass (over the elements still
present, the already-applied ones included) with recovery disabled; any
other error fails only its element.  The Go index loop with in-place
removal is rendered with an accumulator `acc` of the elements kept so
far (`ch`/`evs` accumulate the combined changes and the trace). -/
def applyElementsAllow (env : WriterEnv) :
    List QElement → Changes → List Event → List QElement → ApplyElementsResult
  | acc, ch, evs, [] =>
      { survivors := acc, abortErr := none, changes := ch, events := evs, resets := 0 }
  | acc, ch, evs, e :: rest =>
      match env.applyOutcome 0 e.id with
      | .ok sub => applyElementsAllow env (acc ++ [e]) (ch.combine sub) evs rest
      | .error err =>
          if errsIs err .invalidJson then
            match env.fetchOutcome 0 with
            | some fe =>
                -- Invalid state, and the recovery fetch failed: return the error
                { survivors := acc ++ e :: rest, abortErr := some fe
                  changes := ch, events := evs ++ [.fetchAndReset], resets := 1 }
            | none =>
                -- fetch and reset and redo, with recovery disabled
                let r := applyPassNoReset env 1 (acc ++ e :: rest)
                { survivors := r.survivors, abortErr := none, changes := r.changes
                  events := evs ++ .fetchAndReset :: r.events, resets := 1 }
          else
            applyElementsAllow env acc ch (evs ++ [.send e.id (some err)]) rest

/-- `drainQueue()`: non-blocking pull of all ready elements; an element
whose context is already done gets its context error sent and is
dropped. -/
def drainQueue : List QElement → List QElement × List Event
  | [] => ([], [])
  | f :: rest =>
      let (els, evs) := drainQueue rest
      if f.ctxDone then (els, .send f.id (some f.ctxErr) :: evs)
      else (f :: els, evs)

/-- The webhook/notifier tail of `ProcessQueueOnce`: executed after the
push phase on every path that reaches it, with `changes` from the
pre-push apply pass. -/
def postPush (env : WriterEnv) (changes : Changes) : List Event :=
  (if env.webhookConfigured then [.webhook changes] else []) ++ [.notified]

/-- The error `ProcessQueueOnce` reports when the first push fails with
something that is neither non-fast-forward nor a context error
(`grpc.PublicError` about missing write access), or a context error
(`grpc.CanceledError`). -/
def pushFailErr (perr : GoError) : GoError :=
  if errsIs perr .ctxDeadlineExceeded || errsIs perr .ctxCanceled then .canceledError perr
  else .publicErr "could not push to manifest repository"

/-- The error reported after non-fast-forward recovery: `nil` if the
second push worked, `&InternalError{pushErr}` otherwise. -/
def pushTwoErr (env : WriterEnv) : Option GoError :=
  match env.push2 with
  | some p2 => some (.internalErr p2)
  | none => none

/-- The push / recovery / post-push part of `ProcessQueueOnce`
(repository.go lines 561–598) followed by the deferred sends, given the
surviving `elements`, the `changes` of the apply pass and the number `k`
of fetch-and-resets already performed. -/
def pushPhase (env : WriterEnv) (k : Nat) (elements : List QElement) (changes : Changes) :
    List Event :=
  match env.push1 with
  | some perr =>
      if perr == .gitNonFastForward then
        -- the branch diverged: fetch-and-reset and apply again
        match env.fetchOutcome k with
        | some fe =>
            [.pushAttempt 1, .fetchAndReset] ++ elements.map (fun el => .send el.id (some fe))
        | none =>
            if (applyPassNoReset env (k + 1) elements).survivors.isEmpty then
              [.pushAttempt 1, .fetchAndReset] ++ (applyPassNoReset env (k + 1) elements).events
            else
              [.pushAttempt 1, .fetchAndReset] ++ (applyPassNoReset env (k + 1) elements).events
                ++ [.pushAttempt 2] ++ postPush env changes
                ++ (applyPassNoReset env (k + 1) elements).survivors.map
                    (fun el => .send el.id (pushTwoErr env))
      else
        [.pushAttempt 1] ++ postPush env changes
          ++ elements.map (fun el => .send el.id (some (pushFailErr perr)))
  | none =>
      [.pushAttempt 1] ++ postPush env changes
        ++ elements.map (fun el =>
            .send el.id (if env.pushSuccessFlag then none else some .branchProtection))

/-- The first apply pass of one `ProcessQueueOnce` iteration: the first
element followed by the non-cancelled drained elements, with recovery
allowed. -/
def pass1Of (env : WriterEnv) (e0 : QElement) (queue : List QElement) : ApplyElementsResult :=
  applyElementsAllow env [] {} [] (e0 :: (drainQueue queue).1)

/-- `ProcessQueueOnce(ctx, e, callback, pushAction)` as an event trace.

Control flow mirrored from repository.go lines 522–598; the deferred
completion function (`for _, el := range elements { el.result <- err }`)
is rendered at each return point with the values `elements` and `err`
hold there.  Note in particular that on the path where the first
element's context is already done, the code sends `e.ctx.Err()` directly
*and then* the deferred completion sends the still-initial `err` value
(`panicError`) to `elements = [e]`: two sends on the same channel. -/
def processQueueOnce (env : WriterEnv) (e0 : QElement) (queue : List QElement) : List Event :=
  if e0.ctxDone then
    [.send e0.id (some e0.ctxErr), .send e0.id (some .panicErr)]
  else
    (drainQueue queue).2 ++
      match (pass1Of env e0 queue).abortErr with
      | some ae =>
          (pass1Of env e0 queue).events
            ++ (pass1Of env e0 queue).survivors.map (fun el => .send el.id (some ae))
      | none =>
          if (pass1Of env e0 queue).survivors.isEmpty then (pass1Of env e0 queue).events
          else
            (pass1Of env e0 queue).events
              ++ pushPhase env (pass1Of env e0 queue).resets (pass1Of env e0 queue).survivors
                  (pass1Of env e0 queue).changes

/-! ## ApplyTransformers and commit creation

repository.go lines 789–929. -/

/-- The transformer contract: deterministic given the input state, so
its result for this apply attempt is a value:
`(commitMessage, changeSet)` or an error. -/
structure Transformer where
  outcome : Except GoError (String × Changes)

/-- `repository.ApplyTransformersInternal`: run the transformers in
order, stop at the first error; collect the per-transformer messages
and change-sets. -/
def ApplyTransformersInternal (ts : List Transformer) :
    Except GoError (List String × List Changes) :=
  match ts with
  | [] => .ok ([], [])
  | t :: rest =>
      match t.outcome with
      | .error e => .error e
      | .ok (msg, sub) =>
          match ApplyTransformersInternal rest with
          | .error e => .error e
          | .ok (msgs, chs) => .ok (msg :: msgs, sub :: chs)

/-- A `git.Signature` (name/email; the timestamp is immaterial here). -/
structure Signature where
  name : String
  email : String
  deriving Repr, DecidableEq

/-- The commit created by `CreateCommitFromIds`. -/
structure GitCommit where
  author : Signature
  committer : Signature
  message : String
  /-- parent oid; `none` for the first commit in the repo. -/
  parent : Option Nat
  tree : Nat
  id : Nat
  deriving Repr, DecidableEq

/-- Oracle for one `ApplyTransformers` call: repository configuration,
the branch head the `State` was opened at, the user in the element's
context, and the outcomes of the effectful steps. -/
structure ApplyEnv where
  committerName : String
  committerEmail : String
  /-- `state.Commit`: the current branch head, `none` when the repo has
  no commits yet. -/
  branchHead : Option Nat
  ctxUser : Option User
  /-- `UpdateDatadogMetrics(state)`. -/
  metricsErr : Option GoError := none
  /-- `r.afterTransform(ctx, *state)`. -/
  afterTransformErr : Option GoError := none
  /-- `state.Filesystem.(*fs.TreeBuilderFS).Insert()`. -/
  insertResult : Except GoError Nat
  /-- the oid `CreateCommitFromIds` assigns on success. -/
  newCommitId : Nat
  /-- `CreateCommitFromIds` failure. -/
  createCommitErr : Option GoError := none

/-- `repository.ApplyTransformers(ctx, transformers...)`: apply, update
metrics, regenerate Argo manifests (`afterTransform`), serialise the
tree, and create a commit with committer = the configured service
identity, author = the identity read from the context
(`auth.ReadUserFromContext`), message = the per-transformer messages
joined with `"\n"`, and parent = the previous head (or none). -/
def ApplyTransformers (env : ApplyEnv) (ts : List Transformer) :
    Except GoError (GitCommit × Changes) :=
  match ApplyTransformersInternal ts with
  | .error e => .error e
  | .ok (commitMsg, changes) =>
      match env.metricsErr with
      | some e => .error e
      | none =>
          match env.afterTransformErr with
          | some e => .error (.internalErr (.wrap "failure in afterTransform" e))
          | none =>
              match env.insertResult with
              | .error e => .error (.internalErr e)
              | .ok treeId =>
                  match ReadUserFromContext env.ctxUser with
                  | .error e => .error e
                  | .ok user =>
                      match env.createCommitErr with
                      | some e => .error (.internalErr (.wrap "createCommitFromIds failed" e))
                      | none =>
                          let committer : Signature :=
                            { name := env.committerName, email := env.committerEmail }
                          let author : Signature := { name := user.name, email := user.email }
                          let rev := env.branchHead
                          let commit : GitCommit :=
                            { author := author, committer := committer
                              message := String.intercalate "\n" commitMsg
                              parent := rev, tree := treeId, id := env.newCommitId }
                          let result :=
                            { CombineArray changes with commits := some (rev, env.newCommitId) }
                          .ok (commit, result)

/-! # Theorems -/

/-! ## Releases ordering (C2) -/

/-- Helper: filtering to the parseable entries first does not change a
`filterMap`. -/
theorem filterMap_filter_isSome (f : String → Option Nat) (l : List String) :
    (l.filter (fun s => (f s).isSome)).filterMap f = l.filterMap f := by
  induction l with
  | nil => rfl
  | cons a t ih =>
      cases h : f a with
      | none => simp [List.filter_cons, List.filterMap_cons, h, ih]
      | some v => simp [List.filter_cons, List.filterMap_cons, h, ih]

/-- C2 counterexample: `State.Releases` does not sort.  If `ReadDir`
yields the release directories in the order `["10", "2"]` (the
lexicographic order of a Git tree), `Releases` returns `[10, 2]`, which
is not ascending. -/
theorem releases_unsorted_counterexample :
    Releases ["10", "2"] = [10, 2] ∧ ¬ List.Sorted (· ≤ ·) (Releases ["10", "2"]) := by
  constructor
  · rfl
  · rw [show Releases ["10", "2"] = [10, 2] from rfl]
    decide

/-- C2 (amended): `State.GetApplicationReleases` returns the numeric
entries sorted ascending; its output is a permutation of what
`State.Releases` returns; and `Releases` yields the parseable entries in
`ReadDir` order with non-numeric entries silently skipped. -/
theorem getApplicationReleases_sorted (entries : List String) :
    List.Sorted (· ≤ ·) (GetApplicationReleases entries) ∧
    (GetApplicationReleases entries).Perm (Releases entries) ∧
    Releases entries =
      (entries.filter (fun s => (parseUint64 s).isSome)).filterMap parseUint64 := by
  refine ⟨List.sorted_insertionSort _ _, List.perm_insertionSort _ _, ?_⟩
  exact (filterMap_filter_isSome parseUint64 entries).symm

/-! ## GetUserOrDefault (C10) -/

/-- C10: `GetUserOrDefault` always drops any `DexAuthContext`; when `u`
is nil or has an empty email it falls back to `defaultUser`'s name and
email; otherwise it keeps `u`'s email and uses `u`'s name, or the email
when the name is empty; hence the result's name and email are non-empty
whenever `defaultUser`'s are. -/
theorem getUserOrDefault_spec (u : Option User) (d : User) :
    (GetUserOrDefault u d).dexAuthContext = none ∧
    ((u = none ∨ ∃ v, u = some v ∧ v.email = "") →
      (GetUserOrDefault u d).name = d.name ∧ (GetUserOrDefault u d).email = d.email) ∧
    (∀ v, u = some v → v.email ≠ "" →
      (GetUserOrDefault u d).email = v.email ∧
      (GetUserOrDefault u d).name = (if v.name = "" then v.email else v.name)) ∧
    (d.name ≠ "" → d.email ≠ "" →
      (GetUserOrDefault u d).name ≠ "" ∧ (GetUserOrDefault u d).email ≠ "") := by
  cases u with
  | none =>
      refine ⟨rfl, fun _ => ⟨rfl, rfl⟩, ?_, ?_⟩
      · intro v hv
        cases hv
      · intro hn he
        exact ⟨hn, he⟩
  | some v =>
      by_cases hv : v.email = ""
      · refine ⟨by simp [GetUserOrDefault, hv], fun _ => ⟨by simp [GetUserOrDefault, hv],
          by simp [GetUserOrDefault, hv]⟩, ?_, ?_⟩
        · intro w hw hne
          cases hw
          exact absurd hv hne
        · intro hn he
          constructor <;> simp [GetUserOrDefault, hv, hn, he]
      · refine ⟨by simp [GetUserOrDefault, hv], ?_, ?_, ?_⟩
        · rintro (h | ⟨w, hw, hwe⟩)
          · cases h
          · cases hw
            exact absurd hwe hv
        · intro w hw hne
          cases hw
          constructor <;> simp [GetUserOrDefault, hv]
        · intro hn he
          by_cases hvn : v.name = ""
          · constructor <;> simp [GetUserOrDefault, hv, hvn]
          · constructor <;> simp [GetUserOrDefault, hv, hvn]

/-- Witness for C10 at a concrete input: a user with an email but no
name, against a fully populated default. -/
theorem getUserOrDefault_spec_witness :
    (GetUserOrDefault (some { email := "a@b", name := "" }) { email := "d@e", name := "D" }).email
        = "a@b" ∧
    (GetUserOrDefault (some { email := "a@b", name := "" }) { email := "d@e", name := "D" }).dexAuthContext
        = none := by
  have h := getUserOrDefault_spec (some { email := "a@b", name := "" }) { email := "d@e", name := "D" }
  exact ⟨(h.2.2.1 { email := "a@b", name := "" } rfl (by decide)).1, h.1⟩

/-! ## readSymlink / version getters (C9) -/

/-- C9: the two version getters are `readSymlink`; a missing symlink
yields `nil` without error; a present symlink whose target exists and
has a numeric basename yields that number without error; a present
symlink whose target cannot be stat'ed yields an error and no value. -/
theorem readSymlink_spec (readlink : Except GoError String)
    (statName : String → Except GoError String) :
    GetEnvironmentApplicationVersion readlink statName = readSymlink readlink statName ∧
    GetQueuedVersion readlink statName = readSymlink readlink statName ∧
    (∀ e, readlink = .error e → errsIs e .notExist = true →
      readSymlink readlink statName = (none, none)) ∧
    (∀ lnk name n, readlink = .ok lnk → statName lnk = .ok name →
      parseUintGo name = (n, none) →
      readSymlink readlink statName = (some n, none)) ∧
    (∀ lnk e, readlink = .ok lnk → statName lnk = .error e →
      readSymlink readlink statName = (none, some (.wrap "failed stating" e))) := by
  refine ⟨rfl, rfl, ?_, ?_, ?_⟩
  · intro e he hne
    subst he
    simp [readSymlink, hne]
  · intro lnk name n hl hs hp
    subst hl
    simp [readSymlink, hs, hp]
  · intro lnk e hl hs
    subst hl
    simp [readSymlink, hs]

/-- Witness for C9: the missing-link, happy-path and dangling-target
cases at concrete filesystems. -/
theorem readSymlink_spec_witness :
    readSymlink (.error .notExist) (fun _ => .error (.ioErr 0)) = (none, none) ∧
    readSymlink (.ok "../../../applications/app/releases/7") (fun _ => .ok "7") = (some 7, none) ∧
    readSymlink (.ok "../../../applications/app/releases/7") (fun _ => .error .notExist)
      = (none, some (.wrap "failed stating" .notExist)) := by
  refine ⟨?_, ?_, ?_⟩
  · exact (readSymlink_spec (.error .notExist) (fun _ => .error (.ioErr 0))).2.2.1
      .notExist rfl (by decide)
  · exact (readSymlink_spec (.ok "../../../applications/app/releases/7")
      (fun _ => .ok "7")).2.2.2.1 "../../../applications/app/releases/7" "7" 7 rfl rfl (by decide)
  · exact (readSymlink_spec (.ok "../../../applications/app/releases/7")
      (fun _ => .error .notExist)).2.2.2.2 "../../../applications/app/releases/7" .notExist rfl rfl

/-! ## GetEnvironmentConfigs error taxonomy (C3) -/

/-- Unwrapping `errsIs` one step through a `wrap`. -/
theorem errsIs_wrap (msg : String) (inner t : GoError) :
    errsIs (.wrap msg inner) t = ((GoError.wrap msg inner == t) || errsIs inner t) := by
  rw [errsIs]

/-- C3 counterexample: in bootstrap mode a present-but-malformed configs
file fails with the raw `json.Unmarshal` error, and
`errors.Is(err, invalidJson)` does **not** hold for it. -/
theorem bootstrap_malformed_counterexample :
    GetEnvironmentConfigs true (.ok none) (.ok []) (fun _ => .absent) = .error .jsonSyntax ∧
    errsIs .jsonSyntax .invalidJson = false := ⟨rfl, rfl⟩

/-- Helper: the non-bootstrap config loop aborts with the wrapped
`invalidJson` error at the first malformed `config.json`, when every
earlier environment's file is absent or parses. -/
theorem manifestLoop_malformed (file : String → ConfigFileState) (pre : List String)
    (env : String) (post : List String)
    (hpre : ∀ x ∈ pre, file x = .absent ∨ ∃ c, file x = .parsed c)
    (henv : file env = .malformed) :
    getEnvironmentConfigsManifestLoop file (pre ++ env :: post) =
      .error (.wrap ("environments/" ++ env ++ "/config.json : ") .invalidJson) := by
  induction pre with
  | nil =>
      simp only [List.nil_append, getEnvironmentConfigsManifestLoop, henv, decodeJsonFile]
      rfl
  | cons a t ih =>
      have ht : ∀ x ∈ t, file x = .absent ∨ ∃ c, file x = .parsed c :=
        fun x hx => hpre x (by simp [hx])
      have ih' := ih ht
      rcases hpre a (by simp) with h | ⟨c, h⟩ <;>
        simp [getEnvironmentConfigsManifestLoop, h, decodeJsonFile, ih', errsIs_wrap, errsIs]

/-- C3 (amended): bootstrap mode returns the empty config map when the
configs file is absent; a present-but-malformed file fails with the raw
unmarshal error, which does not satisfy `errors.Is(·, invalidJson)`; the
distinguished `invalidJson` error is produced by the non-bootstrap
branch for a malformed `environments/<env>/config.json`. -/
theorem getEnvironmentConfigs_invalidJson_spec :
    (∀ (e : GoError) (envs : Except GoError (List String)) (file : String → ConfigFileState),
      errsIs e .notExist = true →
      GetEnvironmentConfigs true (.error e) envs file = .ok []) ∧
    (∀ (envs : Except GoError (List String)) (file : String → ConfigFileState) (err : GoError),
      GetEnvironmentConfigs true (.ok none) envs file = .error err →
      err = .jsonSyntax ∧ errsIs err .invalidJson = false) ∧
    (∀ (bf : BootstrapFileRead) (pre : List String) (env : String) (post : List String)
        (file : String → ConfigFileState),
      (∀ x ∈ pre, file x = .absent ∨ ∃ c, file x = .parsed c) →
      file env = .malformed →
      ∃ err, GetEnvironmentConfigs false bf (.ok (pre ++ env :: post)) file = .error err ∧
        errsIs err .invalidJson = true) := by
  refine ⟨?_, ?_, ?_⟩
  · intro e envs file he
    simp [GetEnvironmentConfigs, getEnvironmentConfigsBootstrap, he]
  · intro envs file err herr
    have : (Except.error GoError.jsonSyntax :
        Except GoError (List (String × EnvironmentConfig))) = .error err := herr
    cases this
    exact ⟨rfl, rfl⟩
  · intro bf pre env post file hpre henv
    refine ⟨.wrap ("environments/" ++ env ++ "/config.json : ") .invalidJson, ?_, ?_⟩
    · simp [GetEnvironmentConfigs, getEnvironmentConfigsManifest,
        manifestLoop_malformed file pre env post hpre henv]
    · simp [errsIs_wrap, errsIs]

/-- Witness for C3 (amended): absent bootstrap file, and a two-env
manifest layout whose second environment has a malformed config. -/
theorem getEnvironmentConfigs_invalidJson_spec_witness :
    GetEnvironmentConfigs true (.error .notExist) (.ok []) (fun _ => .absent) = .ok [] ∧
    (∃ err, GetEnvironmentConfigs false (.ok none) (.ok ["development", "production"])
        (fun e => if e = "production" then .malformed else .parsed default) = .error err ∧
      errsIs err .invalidJson = true) := by
  constructor
  · exact getEnvironmentConfigs_invalidJson_spec.1 .notExist (.ok []) (fun _ => .absent)
      (by decide)
  · exact getEnvironmentConfigs_invalidJson_spec.2.2 (.ok none) ["development"] "production" []
      (fun e => if e = "production" then .malformed else .parsed default)
      (by intro x hx; simp at hx; subst hx; right; exact ⟨default, by decide⟩)
      (by decide)

/-! ## Webhook retry policy (C5) -/

/-- C5: the Argo webhook loop makes up to `maxArgoRequests = 3`
attempts; while every response is 5xx it retries, sleeping `100·i` ms
after attempt `i`, and gives up unsuccessfully after the third; the
first non-5xx response (any 2xx in particular) terminates the loop at
that attempt with no further retry. -/
theorem webhook_retry_spec (resp : Nat → AttemptOutcome) :
    ((∀ i, 1 ≤ i → i ≤ 3 → ∃ c, resp i = .status c ∧ 500 ≤ c) →
      sendWebhookToArgoCd resp = (false, 3, [100, 200, 300])) ∧
    (∀ k c, 1 ≤ k → k ≤ 3 →
      (∀ i, 1 ≤ i → i < k → ∃ d, resp i = .status d ∧ 500 ≤ d) →
      resp k = .status c → c < 500 →
      sendWebhookToArgoCd resp =
        (true, k, (List.range (k - 1)).map (fun j => 100 * (j + 1)))) := by
  constructor
  · intro h
    obtain ⟨c1, h1, h1le⟩ := h 1 (by decide) (by decide)
    obtain ⟨c2, h2, h2le⟩ := h 2 (by decide) (by decide)
    obtain ⟨c3, h3, h3le⟩ := h 3 (by decide) (by decide)
    simp [sendWebhookToArgoCd, maxArgoRequests, webhookAttempts, doWebhookPostRequest,
      h1, h2, h3, h1le, h2le, h3le]
  · intro k c hk1 hk3 hprev hk hc
    have hcnot : ¬ 500 ≤ c := by omega
    interval_cases k
    · by_cases h200 : c = 200 <;>
        simp [sendWebhookToArgoCd, maxArgoRequests, webhookAttempts, doWebhookPostRequest,
          hk, hcnot, h200]
    · obtain ⟨d1, h1, h1le⟩ := hprev 1 (by decide) (by decide)
      by_cases h200 : c = 200 <;>
        simp [sendWebhookToArgoCd, maxArgoRequests, webhookAttempts, doWebhookPostRequest,
          h1, h1le, hk, hcnot, h200, List.range_succ]
    · obtain ⟨d1, h1, h1le⟩ := hprev 1 (by decide) (by decide)
      obtain ⟨d2, h2, h2le⟩ := hprev 2 (by decide) (by decide)
      by_cases h200 : c = 200 <;>
        simp [sendWebhookToArgoCd, maxArgoRequests, webhookAttempts, doWebhookPostRequest,
          h1, h1le, h2, h2le, hk, hcnot, h200, List.range_succ]

/-- Witness for C5: all-5xx gives three attempts with sleeps 100/200/300
ms; a first-attempt 204 terminates immediately with success. -/
theorem webhook_retry_spec_witness :
    sendWebhookToArgoCd (fun _ => .status 503) = (false, 3, [100, 200, 300]) ∧
    sendWebhookToArgoCd (fun _ => .status 204) = (true, 1, []) := by
  constructor
  · exact (webhook_retry_spec (fun _ => .status 503)).1 (fun i _ _ => ⟨503, rfl, by decide⟩)
  · have h := (webhook_retry_spec (fun _ => .status 204)).2 1 204 (by decide) (by decide)
      (fun i hi hlt => absurd (lt_of_le_of_lt hi hlt) (by decide)) rfl (by decide)
    simpa using h

/-! ## applyElements error handling (C4) -/

/-- Whether `ApplyTransformers` succeeds for element `x` after `k`
fetch-and-resets. -/
def applyOk (env : WriterEnv) (k : Nat) (x : QElement) : Bool :=
  match env.applyOutcome k x.id with
  | .ok _ => true
  | .error _ => false

/-- The result-channel send produced when element `x`'s transformers
fail after `k` fetch-and-resets, `none` when they succeed. -/
def applyFailEvent (env : WriterEnv) (k : Nat) (x : QElement) : Option Event :=
  match env.applyOutcome k x.id with
  | .error err => some (.send x.id (some err))
  | .ok _ => none

/-- Helper: the recovery-disabled pass keeps exactly the elements whose
transformers succeed and sends each failing element its own error. -/
theorem applyPassNoReset_spec (env : WriterEnv) (k : Nat) (els : List QElement) :
    (applyPassNoReset env k els).survivors = els.filter (applyOk env k) ∧
    (applyPassNoReset env k els).events = els.filterMap (applyFailEvent env k) := by
  induction els with
  | nil => exact ⟨rfl, rfl⟩
  | cons e rest ih =>
      cases hx : env.applyOutcome k e.id with
      | ok sub =>
          simp [applyPassNoReset, hx, List.filter_cons, List.filterMap_cons,
            applyOk, applyFailEvent, ih.1, ih.2]
      | error err =>
          simp [applyPassNoReset, hx, List.filter_cons, List.filterMap_cons,
            applyOk, applyFailEvent, ih.1, ih.2]

/-- Helper: a recovery-allowed pass in which no element fails with an
`invalidJson`-satisfying error never fetches and processes every element
independently (general accumulator form). -/
theorem applyElementsAllow_noInvalid_aux (env : WriterEnv) (elements : List QElement)
    (acc : List QElement) (ch : Changes) (evs : List Event)
    (h : ∀ x ∈ elements, ∀ err, env.applyOutcome 0 x.id = .error err →
      errsIs err .invalidJson = false) :
    applyElementsAllow env acc ch evs elements =
      { survivors := acc ++ elements.filter (applyOk env 0)
        abortErr := none
        changes := elements.foldl (fun c x =>
          match env.applyOutcome 0 x.id with
          | .ok sub => c.combine sub
          | .error _ => c) ch
        events := evs ++ elements.filterMap (applyFailEvent env 0)
        resets := 0 } := by
  induction elements generalizing acc ch evs with
  | nil => simp [applyElementsAllow]
  | cons e rest ih =>
      have hrest : ∀ x ∈ rest, ∀ err, env.applyOutcome 0 x.id = .error err →
          errsIs err .invalidJson = false :=
        fun x hx => h x (by simp [hx])
      cases hx : env.applyOutcome 0 e.id with
      | ok sub =>
          simp only [applyElementsAllow, hx]
          rw [ih _ _ _ hrest]
          simp [List.filter_cons, List.filterMap_cons, applyOk, applyFailEvent, hx,
            List.foldl_cons, List.append_assoc]
      | error err =>
          have hni : errsIs err .invalidJson = false := h e (by simp) err hx
          simp only [applyElementsAllow, hx, hni]
          rw [ih _ _ _ hrest]
          simp [List.filter_cons, List.filterMap_cons, applyOk, applyFailEvent, hx,
            List.foldl_cons, List.append_assoc]

/-- Helper: when every element before `e` succeeds and `e` fails with an
`invalidJson` error while recovery is allowed and the fetch succeeds,
the pass performs the fetch-and-reset and is restarted whole with
recovery disabled (general accumulator form). -/
theorem applyElementsAllow_invalid_aux (env : WriterEnv) (pre : List QElement) (e : QElement)
    (post : List QElement) (err : GoError) (acc : List QElement) (ch : Changes) (evs : List Event)
    (hpre : ∀ x ∈ pre, applyOk env 0 x = true)
    (he : env.applyOutcome 0 e.id = .error err)
    (hj : errsIs err .invalidJson = true)
    (hf : env.fetchOutcome 0 = none) :
    applyElementsAllow env acc ch evs (pre ++ e :: post) =
      { survivors := (applyPassNoReset env 1 ((acc ++ pre) ++ e :: post)).survivors
        abortErr := none
        changes := (applyPassNoReset env 1 ((acc ++ pre) ++ e :: post)).changes
        events := evs ++ .fetchAndReset ::
          (applyPassNoReset env 1 ((acc ++ pre) ++ e :: post)).events
        resets := 1 } := by
  induction pre generalizing acc ch evs with
  | nil =>
      simp only [List.nil_append, applyElementsAllow, he, hj, hf]
      simp
  | cons a t ih =>
      have ha : applyOk env 0 a = true := hpre a (by simp)
      cases hx : env.applyOutcome 0 a.id with
      | error er =>
          rw [applyOk, hx] at ha
          cases ha
      | ok sub =>
          have ht : ∀ x ∈ t, applyOk env 0 x = true := fun x hx' => hpre x (by simp [hx'])
          simp only [List.cons_append, applyElementsAllow, hx, List.append_eq]
          rw [ih _ _ _ ht]
          simp [List.append_assoc]

/-- C4: during the apply pass over a drained batch, (a) if no
transformer fails with the distinguished `invalidJson` error, no
fetch-and-reset happens, every failing element gets exactly its own
error on its own result channel and is removed, and all remaining
elements are still applied (they survive); (b) if the elements before
`e` succeed and `e` fails with an `invalidJson` error while recovery is
allowed and the recovery fetch succeeds, the writer performs one
fetch-and-reset and restarts the whole pass — `e` and the already
applied elements included — with recovery disabled. -/
theorem applyElements_error_handling :
    (∀ (env : WriterEnv) (elements : List QElement),
      (∀ x ∈ elements, ∀ err, env.applyOutcome 0 x.id = .error err →
        errsIs err .invalidJson = false) →
      (applyElementsAllow env [] {} [] elements).resets = 0 ∧
      (applyElementsAllow env [] {} [] elements).abortErr = none ∧
      (applyElementsAllow env [] {} [] elements).survivors = elements.filter (applyOk env 0) ∧
      (applyElementsAllow env [] {} [] elements).events
        = elements.filterMap (applyFailEvent env 0)) ∧
    (∀ (env : WriterEnv) (pre : List QElement) (e : QElement) (post : List QElement)
        (err : GoError),
      (∀ x ∈ pre, applyOk env 0 x = true) →
      env.applyOutcome 0 e.id = .error err →
      errsIs err .invalidJson = true →
      env.fetchOutcome 0 = none →
      applyElementsAllow env [] {} [] (pre ++ e :: post) =
        { survivors := (applyPassNoReset env 1 (pre ++ e :: post)).survivors
          abortErr := none
          changes := (applyPassNoReset env 1 (pre ++ e :: post)).changes
          events := .fetchAndReset :: (applyPassNoReset env 1 (pre ++ e :: post)).events
          resets := 1 }) := by
  constructor
  · intro env elements h
    rw [applyElementsAllow_noInvalid_aux env elements [] {} [] h]
    exact ⟨rfl, rfl, by simp, by simp⟩
  · intro env pre e post err hpre he hj hf
    have h := applyElementsAllow_invalid_aux env pre e post err [] {} [] hpre he hj hf
    simpa using h

/-- Concrete writer oracle for the C4 witness, plain-error case: element
2's transformers fail with an I/O error, everything else succeeds. -/
def c4EnvA : WriterEnv where
  applyOutcome := fun _ id => if id = 2 then .error (.ioErr 9) else .ok {}
  fetchOutcome := fun _ => none
  push1 := none
  push2 := none
  pushSuccessFlag := true
  webhookConfigured := true

/-- Concrete writer oracle for the C4 witness, invalid-JSON case:
element 2's transformers fail with `invalidJson` before the reset and
succeed after it. -/
def c4EnvB : WriterEnv where
  applyOutcome := fun k id => if k = 0 ∧ id = 2 then .error .invalidJson else .ok {}
  fetchOutcome := fun _ => none
  push1 := none
  push2 := none
  pushSuccessFlag := true
  webhookConfigured := true

/-- Witness for C4: a three-element batch where the middle element fails
with a plain error (only it is dropped, no reset), and a two-element
batch whose second element hits `invalidJson` (one reset, whole pass
redone and everything survives). -/
theorem applyElements_error_handling_witness :
    ((applyElementsAllow c4EnvA [] {} []
        [⟨1, false, .ctxCanceled⟩, ⟨2, false, .ctxCanceled⟩, ⟨3, false, .ctxCanceled⟩]).survivors
      = [⟨1, false, .ctxCanceled⟩, ⟨3, false, .ctxCanceled⟩]) ∧
    ((applyElementsAllow c4EnvA [] {} []
        [⟨1, false, .ctxCanceled⟩, ⟨2, false, .ctxCanceled⟩, ⟨3, false, .ctxCanceled⟩]).events
      = [.send 2 (some (.ioErr 9))]) ∧
    ((applyElementsAllow c4EnvA [] {} []
        [⟨1, false, .ctxCanceled⟩, ⟨2, false, .ctxCanceled⟩, ⟨3, false, .ctxCanceled⟩]).resets
      = 0) ∧
    (applyElementsAllow c4EnvB [] {} [] [⟨1, false, .ctxCanceled⟩, ⟨2, false, .ctxCanceled⟩]
      = { survivors := [⟨1, false, .ctxCanceled⟩, ⟨2, false, .ctxCanceled⟩]
          abortErr := none, changes := {}
          events := [.fetchAndReset], resets := 1 }) := by
  have hyp : ∀ x ∈ ([⟨1, false, .ctxCanceled⟩, ⟨2, false, .ctxCanceled⟩,
      ⟨3, false, .ctxCanceled⟩] : List QElement), ∀ err,
      c4EnvA.applyOutcome 0 x.id = .error err → errsIs err .invalidJson = false := by
    intro x hx err herr
    simp only [List.mem_cons, List.not_mem_nil, or_false] at hx
    rcases hx with rfl | rfl | rfl
    · simp [c4EnvA] at herr
    · have h9 : GoError.ioErr 9 = err := by simpa [c4EnvA] using herr
      rw [← h9]
      decide
    · simp [c4EnvA] at herr
  have hA := applyElements_error_handling.1 c4EnvA
    [⟨1, false, .ctxCanceled⟩, ⟨2, false, .ctxCanceled⟩, ⟨3, false, .ctxCanceled⟩] hyp
  have hB := applyElements_error_handling.2 c4EnvB
    [⟨1, false, .ctxCanceled⟩] ⟨2, false, .ctxCanceled⟩ [] .invalidJson
    (by
      intro x hx
      simp only [List.mem_cons, List.not_mem_nil, or_false] at hx
      subst hx
      rfl)
    rfl (by decide) rfl
  simp only [List.singleton_append] at hB
  refine ⟨?_, ?_, ?_, ?_⟩
  · rw [hA.2.2.1]; decide
  · rw [hA.2.2.2]; decide
  · exact hA.1
  · rw [hB]; decide

/-! ## Non-fast-forward recovery (C6) -/

/-- Helper: `applyFailEvent` only ever produces a `send`. -/
theorem applyFailEvent_send (env : WriterEnv) (k : Nat) (x : QElement) (ev : Event)
    (h : applyFailEvent env k x = some ev) : ∃ id err, ev = .send id (some err) := by
  unfold applyFailEvent at h
  cases hx : env.applyOutcome k x.id with
  | ok sub => rw [hx] at h; cases h
  | error err =>
      rw [hx] at h
      cases h
      exact ⟨x.id, err, rfl⟩

/-- Helper: a recovery-disabled pass emits only `send` events. -/
theorem applyPassNoReset_events_shape (env : WriterEnv) (k : Nat) (els : List QElement) :
    ∀ ev ∈ (applyPassNoReset env k els).events, ∃ id err, ev = .send id (some err) := by
  intro ev hev
  rw [(applyPassNoReset_spec env k els).2] at hev
  obtain ⟨x, _, hx⟩ := List.mem_filterMap.mp hev
  exact applyFailEvent_send env k x ev hx

/-- Helper: the events of a recovery-allowed pass (beyond the
accumulator) are `send`s or `fetchAndReset`. -/
theorem applyElementsAllow_events_shape (env : WriterEnv) (els : List QElement)
    (acc : List QElement) (ch : Changes) (evs : List Event) :
    ∀ ev ∈ (applyElementsAllow env acc ch evs els).events,
      ev ∈ evs ∨ ev = .fetchAndReset ∨ ∃ id err, ev = .send id (some err) := by
  induction els generalizing acc ch evs with
  | nil =>
      intro ev hev
      exact Or.inl hev
  | cons e rest ih =>
      intro ev hev
      cases hx : env.applyOutcome 0 e.id with
      | ok sub =>
          simp only [applyElementsAllow, hx] at hev
          exact ih _ _ _ ev hev
      | error err =>
          by_cases hj : errsIs err .invalidJson = true
          · cases hf : env.fetchOutcome 0 with
            | some fe =>
                simp only [applyElementsAllow, hx, hj, hf] at hev
                rcases List.mem_append.mp hev with h | h
                · exact Or.inl h
                · simp only [List.mem_singleton] at h
                  exact Or.inr (Or.inl h)
            | none =>
                simp only [applyElementsAllow, hx, hj, hf] at hev
                rcases List.mem_append.mp hev with h | h
                · exact Or.inl h
                · rcases List.mem_cons.mp h with h' | h'
                  · exact Or.inr (Or.inl h')
                  · exact Or.inr (Or.inr (applyPassNoReset_events_shape env 1 _ ev h'))
          · have hj' : errsIs err .invalidJson = false := by
              cases h : errsIs err .invalidJson with
              | true => exact absurd h hj
              | false => rfl
            simp only [applyElementsAllow, hx, hj'] at hev
            rcases ih _ _ _ ev hev with h | h
            · rcases List.mem_append.mp h with h' | h'
              · exact Or.inl h'
              · simp only [List.mem_singleton] at h'
                exact Or.inr (Or.inr ⟨e.id, err, h'⟩)
            · exact Or.inr h

/-- Helper: the drain phase emits only `send` events. -/
theorem drainQueue_events_shape (queue : List QElement) :
    ∀ ev ∈ (drainQueue queue).2, ∃ id err, ev = .send id (some err) := by
  induction queue with
  | nil => intro ev hev; cases hev
  | cons f rest ih =>
      intro ev hev
      by_cases hf : f.ctxDone = true
      · simp only [drainQueue, hf, if_true] at hev
        rcases List.mem_cons.mp hev with h | h
        · exact ⟨f.id, f.ctxErr, h⟩
        · exact ih ev h
      · simp only [drainQueue, eq_false_of_ne_true hf, if_false] at hev
        exact ih ev hev

/-- Helper: no `pushAttempt` event occurs in a list of `send`s and
`fetchAndReset`s. -/
theorem pushAttempt_not_mem_of_shape (l : List Event) (n : Nat)
    (h : ∀ ev ∈ l, ev ∈ ([] : List Event) ∨ ev = .fetchAndReset ∨
      ∃ id err, ev = .send id (some err)) :
    Event.pushAttempt n ∉ l := by
  intro hmem
  rcases h _ hmem with h' | h' | ⟨id, err, h'⟩
  · cases h'
  · cases h'
  · cases h'

/-- C6: (a) inside `repository.Push`, a first-attempt non-fast-forward
error is permanent: backoff performs no retry and `Push` returns after
exactly one attempt with that error; (b) in `ProcessQueueOnce`, when the
first push fails non-fast-forward, the writer does one fetch-and-reset,
re-applies the surviving elements with recovery disabled
(`applyPassNoReset`), pushes exactly once more (exactly one
`pushAttempt 2` in the trace), and if that second push fails every
surviving element receives `&InternalError{pushErr}`. -/
theorem nonFastForward_recovery_spec :
    (∀ (op : Nat → Option GoError) (ebStop : Nat → Bool),
      op 0 = some .gitNonFastForward →
      Push op ebStop = (some .gitNonFastForward, 1)) ∧
    (∀ (env : WriterEnv) (e0 : QElement) (queue : List QElement) (p2 : GoError),
      e0.ctxDone = false →
      (pass1Of env e0 queue).abortErr = none →
      (pass1Of env e0 queue).survivors.isEmpty = false →
      env.push1 = some .gitNonFastForward →
      env.fetchOutcome (pass1Of env e0 queue).resets = none →
      (applyPassNoReset env ((pass1Of env e0 queue).resets + 1)
          (pass1Of env e0 queue).survivors).survivors.isEmpty = false →
      env.push2 = some p2 →
      (processQueueOnce env e0 queue =
        (drainQueue queue).2 ++ (pass1Of env e0 queue).events
          ++ [.pushAttempt 1, .fetchAndReset]
          ++ (applyPassNoReset env ((pass1Of env e0 queue).resets + 1)
              (pass1Of env e0 queue).survivors).events
          ++ [.pushAttempt 2] ++ postPush env (pass1Of env e0 queue).changes
          ++ (applyPassNoReset env ((pass1Of env e0 queue).resets + 1)
              (pass1Of env e0 queue).survivors).survivors.map
              (fun el => .send el.id (some (.internalErr p2)))) ∧
      (processQueueOnce env e0 queue).count (.pushAttempt 2) = 1 ∧
      (∀ el ∈ (applyPassNoReset env ((pass1Of env e0 queue).resets + 1)
          (pass1Of env e0 queue).survivors).survivors,
        (Event.send el.id (some (.internalErr p2))) ∈ processQueueOnce env e0 queue)) := by
  constructor
  · intro op ebStop h
    simp [Push, pushRetryLoop, maxPushRetries, h]
  · intro env e0 queue p2 h0 habort hne hpush hfetch hs2 hp2
    have htrace : processQueueOnce env e0 queue =
        (drainQueue queue).2 ++ (pass1Of env e0 queue).events
          ++ [.pushAttempt 1, .fetchAndReset]
          ++ (applyPassNoReset env ((pass1Of env e0 queue).resets + 1)
              (pass1Of env e0 queue).survivors).events
          ++ [.pushAttempt 2] ++ postPush env (pass1Of env e0 queue).changes
          ++ (applyPassNoReset env ((pass1Of env e0 queue).resets + 1)
              (pass1Of env e0 queue).survivors).survivors.map
              (fun el => .send el.id (some (.internalErr p2))) := by
      rw [processQueueOnce]
      rw [h0, habort]
      simp only [Bool.false_eq_true, if_false, hne, pushPhase, hpush, hfetch, hs2,
        pushTwoErr, hp2]
      simp [List.append_assoc]
    refine ⟨htrace, ?_, ?_⟩
    · rw [htrace]
      have hd : Event.pushAttempt 2 ∉ (drainQueue queue).2 :=
        pushAttempt_not_mem_of_shape _ _
          (fun ev hev => Or.inr (Or.inr (drainQueue_events_shape queue ev hev)))
      have hp1 : Event.pushAttempt 2 ∉ (pass1Of env e0 queue).events :=
        pushAttempt_not_mem_of_shape _ _
          (fun ev hev => by
            rcases applyElementsAllow_events_shape env _ [] {} [] ev hev with h | h
            · cases h
            · exact Or.inr h)
      have hp2' : Event.pushAttempt 2 ∉ (applyPassNoReset env
          ((pass1Of env e0 queue).resets + 1) (pass1Of env e0 queue).survivors).events :=
        pushAttempt_not_mem_of_shape _ _
          (fun ev hev => Or.inr (Or.inr (applyPassNoReset_events_shape env _ _ ev hev)))
      have hmap : Event.pushAttempt 2 ∉ (applyPassNoReset env
          ((pass1Of env e0 queue).resets + 1)
          (pass1Of env e0 queue).survivors).survivors.map
            (fun el => Event.send el.id (some (.internalErr p2))) := by
        intro hmem
        obtain ⟨el, _, hel⟩ := List.mem_map.mp hmem
        cases hel
      have hpost : Event.pushAttempt 2 ∉ postPush env (pass1Of env e0 queue).changes := by
        intro hmem
        unfold postPush at hmem
        rcases List.mem_append.mp hmem with h | h
        · split at h
          · simp only [List.mem_singleton] at h
            cases h
          · cases h
        · simp only [List.mem_singleton] at h
          cases h
      simp [List.count_append, List.count_eq_zero_of_not_mem, hd, hp1, hp2', hmap, hpost]
    · intro el hel
      rw [htrace]
      refine List.mem_append.mpr (Or.inr ?_)
      exact List.mem_map.mpr ⟨el, hel, rfl⟩

/-- Concrete writer oracle for the C6 witness: everything applies, the
first push hits non-fast-forward, the second push fails with another git
error. -/
def c6Env : WriterEnv where
  applyOutcome := fun _ _ => .ok {}
  fetchOutcome := fun _ => none
  push1 := some .gitNonFastForward
  push2 := some (.gitOther 3)
  pushSuccessFlag := true
  webhookConfigured := false

/-- Witness for C6: a single-attempt non-fast-forward `Push`, and a full
recovery iteration whose second push fails, with the internal error
delivered to the surviving element. -/
theorem nonFastForward_recovery_spec_witness :
    Push (fun _ => some .gitNonFastForward) (fun _ => false) = (some .gitNonFastForward, 1) ∧
    processQueueOnce c6Env ⟨1, false, .ctxCanceled⟩ [] =
      [.pushAttempt 1, .fetchAndReset, .pushAttempt 2, .notified,
       .send 1 (some (.internalErr (.gitOther 3)))] := by
  constructor
  · exact nonFastForward_recovery_spec.1 (fun _ => some .gitNonFastForward) (fun _ => false) rfl
  · have h := (nonFastForward_recovery_spec.2 c6Env ⟨1, false, .ctxCanceled⟩ [] (.gitOther 3)
      rfl rfl rfl rfl rfl rfl rfl).1
    rw [h]
    decide

/-! ## Webhook / notifier ordering relative to the push (C1) -/

/-- Concrete writer oracle for C1: everything applies, the push fails
with a git error that is neither non-fast-forward nor a context error,
and a webhook URL is configured. -/
def c1Env : WriterEnv where
  applyOutcome := fun _ _ => .ok {}
  fetchOutcome := fun _ => none
  push1 := some (.gitOther 7)
  push2 := none
  pushSuccessFlag := true
  webhookConfigured := true

/-- C1 counterexample: a batch whose push **fails** (the element is told
about the failure with a public error) still dispatches the Argo webhook
and signals the notifier in the same iteration. -/
theorem webhook_after_failed_push_counterexample :
    c1Env.push1 = some (.gitOther 7) ∧
    processQueueOnce c1Env ⟨1, false, .ctxCanceled⟩ [] =
      [.pushAttempt 1, .webhook {}, .notified,
       .send 1 (some (.publicErr "could not push to manifest repository"))] ∧
    Event.webhook {} ∈ processQueueOnce c1Env ⟨1, false, .ctxCanceled⟩ [] ∧
    Event.notified ∈ processQueueOnce c1Env ⟨1, false, .ctxCanceled⟩ [] := by
  exact ⟨rfl, by decide, by decide, by decide⟩

/-- Helper: on every push branch that does not return early (transport
success, non-NFF failure, or NFF with successful fetch and a nonempty
re-apply), the push phase contains the notifier signal and — when a
webhook URL is configured — the webhook dispatch with the pre-push
change-set. -/
theorem pushPhase_postpush_mem (env : WriterEnv) (k : Nat) (elements : List QElement)
    (changes : Changes)
    (h : env.push1 = none ∨
      (∃ perr, env.push1 = some perr ∧ perr ≠ .gitNonFastForward) ∨
      (env.push1 = some .gitNonFastForward ∧ env.fetchOutcome k = none ∧
        (applyPassNoReset env (k + 1) elements).survivors.isEmpty = false)) :
    Event.notified ∈ pushPhase env k elements changes ∧
    (env.webhookConfigured = true →
      Event.webhook changes ∈ pushPhase env k elements changes) := by
  rcases h with h | ⟨perr, hp, hne⟩ | ⟨hp, hf, hs2⟩
  · constructor
    · simp [pushPhase, h, postPush]
    · intro hw
      simp [pushPhase, h, postPush, hw]
  · have hbeq : (perr == GoError.gitNonFastForward) = false := by
      cases hb : perr == GoError.gitNonFastForward with
      | false => rfl
      | true => exact absurd (eq_of_beq hb) hne
    constructor
    · simp [pushPhase, hp, hbeq, postPush]
    · intro hw
      simp [pushPhase, hp, hbeq, postPush, hw]
  · constructor
    · simp [pushPhase, hp, hf, hs2, postPush]
    · intro hw
      simp [pushPhase, hp, hf, hs2, postPush, hw]

/-- C1 (amended): the webhook dispatch and the notifier signal happen
after the push phase but regardless of the push's outcome: whenever the
iteration reaches the push (apply pass succeeded with surviving
elements, and — after a non-fast-forward first push — the fetch-and-reset
and the re-apply succeeded with survivors), the trace contains
`notified`, and `webhook` when a URL is configured, even when every push
failed; moreover the webhook always carries the change-set of the
pre-push apply pass (`pass1Of`), not of the non-fast-forward re-apply. -/
theorem webhook_notify_fire_regardless_of_push (env : WriterEnv) (e0 : QElement)
    (queue : List QElement)
    (h0 : e0.ctxDone = false)
    (habort : (pass1Of env e0 queue).abortErr = none)
    (hne : (pass1Of env e0 queue).survivors.isEmpty = false)
    (hpush : env.push1 = none ∨
      (∃ perr, env.push1 = some perr ∧ perr ≠ .gitNonFastForward) ∨
      (env.push1 = some .gitNonFastForward ∧
        env.fetchOutcome (pass1Of env e0 queue).resets = none ∧
        (applyPassNoReset env ((pass1Of env e0 queue).resets + 1)
          (pass1Of env e0 queue).survivors).survivors.isEmpty = false)) :
    Event.notified ∈ processQueueOnce env e0 queue ∧
    (env.webhookConfigured = true →
      Event.webhook (pass1Of env e0 queue).changes ∈ processQueueOnce env e0 queue) := by
  have hmem := pushPhase_postpush_mem env (pass1Of env e0 queue).resets
    (pass1Of env e0 queue).survivors (pass1Of env e0 queue).changes hpush
  have htr : processQueueOnce env e0 queue =
      (drainQueue queue).2 ++ ((pass1Of env e0 queue).events
        ++ pushPhase env (pass1Of env e0 queue).resets (pass1Of env e0 queue).survivors
            (pass1Of env e0 queue).changes) := by
    rw [processQueueOnce, h0, habort]
    simp only [Bool.false_eq_true, if_false, hne]
  rw [htr]
  constructor
  · exact List.mem_append.mpr (Or.inr (List.mem_append.mpr (Or.inr hmem.1)))
  · intro hw
    exact List.mem_append.mpr (Or.inr (List.mem_append.mpr (Or.inr (hmem.2 hw))))

/-- Witness for C1 (amended): the failed-push run of `c1Env` still fires
webhook and notifier. -/
theorem webhook_notify_fire_regardless_of_push_witness :
    Event.notified ∈ processQueueOnce c1Env ⟨1, false, .ctxCanceled⟩ [] ∧
    Event.webhook (pass1Of c1Env ⟨1, false, .ctxCanceled⟩ []).changes
      ∈ processQueueOnce c1Env ⟨1, false, .ctxCanceled⟩ [] := by
  have h := webhook_notify_fire_regardless_of_push c1Env ⟨1, false, .ctxCanceled⟩ []
    rfl rfl rfl (Or.inr (Or.inl ⟨.gitOther 7, rfl, by decide⟩))
  exact ⟨h.1, h.2 rfl⟩

/-! ## Cancelled first element (C7) -/

/-- Concrete writer oracle for C7 (its fields are irrelevant on the
cancelled-first-element path). -/
def c7Env : WriterEnv where
  applyOutcome := fun _ _ => .ok {}
  fetchOutcome := fun _ => none
  push1 := none
  push2 := none
  pushSuccessFlag := true
  webhookConfigured := false

/-- C7: when the first element's context is already done,
`ProcessQueueOnce` sends the context error directly **and** the deferred
completion then sends the still-initial `panicError` to the same
single-use result channel: the element receives two sends, not one.  A
cancelled element found during the non-blocking drain, by contrast,
receives exactly its context error and nothing else. -/
theorem cancelled_first_element_double_send :
    processQueueOnce c7Env ⟨5, true, .ctxCanceled⟩ [] =
      [.send 5 (some .ctxCanceled), .send 5 (some .panicErr)] ∧
    (processQueueOnce c7Env ⟨5, true, .ctxCanceled⟩ []).length = 2 ∧
    (processQueueOnce c7Env ⟨5, true, .ctxCanceled⟩ []).count (.send 5 (some .panicErr)) = 1 ∧
    drainQueue [⟨9, true, .ctxDeadlineExceeded⟩] =
      ([], [.send 9 (some .ctxDeadlineExceeded)]) := by
  exact ⟨by decide, by decide, by decide, by decide⟩

/-! ## Commit metadata (C8) -/

/-- C8: a successful `ApplyTransformers` creates a commit whose
committer is the configured service identity, whose author is the
identity read from the element's authenticated context, whose message is
the per-transformer messages joined by newlines, and whose parent is the
previous branch head (none for a fresh repository). -/
theorem applyTransformers_commit_spec (env : ApplyEnv) (ts : List Transformer)
    (c : GitCommit) (res : Changes)
    (h : ApplyTransformers env ts = .ok (c, res)) :
    c.committer = { name := env.committerName, email := env.committerEmail } ∧
    (∃ u, env.ctxUser = some u ∧ c.author = { name := u.name, email := u.email }) ∧
    (∃ msgs chs, ApplyTransformersInternal ts = .ok (msgs, chs) ∧
      c.message = String.intercalate "\n" msgs) ∧
    c.parent = env.branchHead := by
  cases hI : ApplyTransformersInternal ts with
  | error e => simp [ApplyTransformers, hI] at h
  | ok p =>
      obtain ⟨msgs, chs⟩ := p
      cases hm : env.metricsErr with
      | some e => simp [ApplyTransformers, hI, hm] at h
      | none =>
          cases ha : env.afterTransformErr with
          | some e => simp [ApplyTransformers, hI, hm, ha] at h
          | none =>
              cases hins : env.insertResult with
              | error e => simp [ApplyTransformers, hI, hm, ha, hins] at h
              | ok treeId =>
                  cases hu : env.ctxUser with
                  | none =>
                      simp [ApplyTransformers, ReadUserFromContext, hI, hm, ha, hins, hu] at h
                  | some u =>
                      cases hcc : env.createCommitErr with
                      | some e =>
                          simp [ApplyTransformers, ReadUserFromContext,
                            hI, hm, ha, hins, hu, hcc] at h
                      | none =>
                          simp only [ApplyTransformers, ReadUserFromContext,
                            hI, hm, ha, hins, hu, hcc, Except.ok.injEq, Prod.mk.injEq] at h
                          obtain ⟨hc1, _⟩ := h
                          subst hc1
                          exact ⟨rfl, ⟨u, rfl, rfl⟩, ⟨msgs, chs, rfl, rfl⟩, rfl⟩

/-- Concrete apply oracle for the C8 witness. -/
def c8Env : ApplyEnv where
  committerName := "kuberpult"
  committerEmail := "kuberpult@example.com"
  branchHead := some 41
  ctxUser := some { email := "author@example.com", name := "Author" }
  insertResult := .ok 7
  newCommitId := 42

/-- The commit the C8 witness run creates. -/
def c8Commit : GitCommit where
  author := { name := "Author", email := "author@example.com" }
  committer := { name := "kuberpult", email := "kuberpult@example.com" }
  message := "m1\nm2"
  parent := some 41
  tree := 7
  id := 42

/-- The change-set the C8 witness run returns. -/
def c8Res : Changes where
  changedApps := []
  deletedRootApps := []
  commits := some (some 41, 42)

/-- Witness for C8: a two-transformer apply against a repository with
head 41, committed by the service identity with the context author. -/
theorem applyTransformers_commit_spec_witness :
    c8Commit.committer = { name := "kuberpult", email := "kuberpult@example.com" } ∧
    (∃ u, c8Env.ctxUser = some u ∧ c8Commit.author = { name := u.name, email := u.email }) ∧
    c8Commit.parent = some 41 := by
  have h := applyTransformers_commit_spec c8Env [⟨.ok ("m1", {})⟩, ⟨.ok ("m2", {})⟩]
    c8Commit c8Res rfl
  exact ⟨h.1, h.2.1, h.2.2.2⟩

end Kuberpult
